import Mathlib

/-!
Shallow embedding of src/decompile.py (an interactive wrapper around the
ilspycmd decompiler) and proofs about the claims of the specification.

Modelling conventions:
* Python strings are Lean String values (a structure around List Char);
  the string operations the script uses (str.strip, str.lower,
  str.endswith, the membership test x in s, os.path.join,
  os.path.splitext, os.path.expanduser) are embedded below, following
  the CPython / posixpath implementations.  str.lower and str.strip are
  embedded on the ASCII fragment (the script only compares prompt
  answers against the ASCII letter y); CPython agrees with the
  embedding on ASCII input.
* The filesystem, the passwd database and the results of spawned
  external processes are oracles (parameters of the functions): the
  script never writes to the filesystem itself.
* The console is a list of inputs: some s is a line returned by
  input(), none is a KeyboardInterrupt raised at that input() call, and
  an exhausted list is an EOFError (uncaught in the script, so the
  process crashes).
* sys.exit n is modelled by halting with exit code n; falling off the
  end of main is a normal interpreter exit with status 0.
-/

/-- Characters stripped by Python str.strip() with no argument
(whitespace; ASCII fragment). -/
def pyIsSpace (c : Char) : Bool :=
  c = ' ' || c = '\t' || c = '\n' || c = '\r' || c = '\x0b' || c = '\x0c'

/-- Drop characters satisfying f from both ends of a list
(Python str.strip with a character class). -/
def stripBoth (f : Char → Bool) (l : List Char) : List Char :=
  ((l.dropWhile f).reverse.dropWhile f).reverse

/-- Python str.strip() (no argument: strip whitespace from both ends). -/
def pyStrip (s : String) : String :=
  String.mk (stripBoth pyIsSpace s.data)

/-- Python str.strip("\x27\x22") as used on the path inputs: strip
single and double quote characters from both ends. -/
def stripQuotes (s : String) : String :=
  String.mk (stripBoth (fun c => c = Char.ofNat 39 || c = Char.ofNat 34) s.data)

/-- Python str.lower() (ASCII fragment). -/
def pyLower (s : String) : String :=
  String.mk (s.data.map Char.toLower)

/-- Python str.endswith(suf): suffix test. -/
def pyEndsWith (s suf : String) : Bool :=
  suf.data.isSuffixOf s.data

/-- Python str.startswith(pre): prefix test. -/
def pyStartsWith (s pre : String) : Bool :=
  pre.data.isPrefixOf s.data

/-- Substring occurrence test on character lists (Python x in s). -/
def infixB (pat : List Char) : List Char → Bool
  | [] => pat.isPrefixOf []
  | c :: t => pat.isPrefixOf (c :: t) || infixB pat t

/-- Python substring membership pat in s. -/
def pyContains (s pat : String) : Bool :=
  infixB pat.data s.data

/-- posixpath.join for two components: if the second starts with the
separator it replaces the first; otherwise it is appended, inserting a
separator unless the first is empty or already ends with one. -/
def pyjoin (a b : String) : String :=
  if pyStartsWith b "/" then b
  else if a = "" || pyEndsWith a "/" then a ++ b
  else a ++ "/" ++ b

/-- Index of the last occurrence of a character in a list, if any. -/
def rfindIdx (c : Char) (l : List Char) : Option Nat :=
  match l.reverse.findIdx? (fun x => x = c) with
  | none => none
  | some i => some (l.length - 1 - i)

/-- genericpath._splitext on character lists with separator / (no
altsep, extension separator .): split off the extension starting at the
last dot of the final component, unless every character of the final
component before that dot is itself a dot (leading dots are not an
extension separator).  The CPython indices sepIndex and dotIndex use -1
for a missing character; here the two rfind results are matched as
options instead, so filenameIndex = sepIndex + 1 becomes 0 in the
missing-separator branch and the guard dotIndex > sepIndex is vacuous
there. -/
def splitextList (p : List Char) : List Char × List Char :=
  match rfindIdx '.' p with
  | none => (p, [])
  | some di =>
    match rfindIdx '/' p with
    | none =>
        if ((p.drop 0).take (di - 0)).any (fun c => c ≠ '.') then
          (p.take di, p.drop di)
        else (p, [])
    | some si =>
        if si < di then
          if ((p.drop (si + 1)).take (di - (si + 1))).any (fun c => c ≠ '.') then
            (p.take di, p.drop di)
          else (p, [])
        else (p, [])

/-- os.path.splitext on strings. -/
def splitext (p : String) : String × String :=
  (String.mk (splitextList p.data).1, String.mk (splitextList p.data).2)

/-- Environment-variable map: os.environ. -/
def Env : Type := String → Option String

/-- The fragment of the passwd database that posixpath.expanduser
consults: the home directory of the current uid (none models a KeyError
from pwd.getpwuid) and home directories by user name. -/
structure Pwd where
  uidHome : Option String
  nameHome : String → Option String

/-- Index, within a path, of the first / at position 1 or later;
the length of the path when there is none (posixpath.expanduser,
path.find(sep, 1)). -/
def findSlashFrom1 (l : List Char) : Nat :=
  match (l.drop 1).findIdx? (fun c => c = '/') with
  | none => l.length
  | some j => j + 1

/-- posixpath.expanduser: a leading tilde component is replaced by the
home directory of the current user (HOME when set, else the passwd
entry of the current uid) or of the named user; on a failed lookup the
path is returned unchanged.  The home directory is stripped of trailing
separators, and an empty result becomes the root. -/
def expanduser (env : Env) (pwd : Pwd) (path : String) : String :=
  if pyStartsWith path "~" = false then path
  else
    let l := path.data
    let i := findSlashFrom1 l
    let userhome? : Option String :=
      if i = 1 then
        match env "HOME" with
        | some h => some h
        | none => pwd.uidHome
      else pwd.nameHome (String.mk ((l.drop 1).take (i - 1)))
    match userhome? with
    | none => path
    | some uh =>
      let uh' := (uh.data.reverse.dropWhile (fun c => c = '/')).reverse
      let res := uh' ++ l.drop i
      if res = [] then "/" else String.mk res

/-- Result of attempting to spawn one external command: the executable
is missing (subprocess raises FileNotFoundError), or the process
completed with a return code, stdout and stderr. -/
inductive ProcResult where
  | missing
  | completed (returncode : Int) (stdout stderr : String)
deriving DecidableEq, Repr

/-- Oracle giving the result of the n-th spawned external command. -/
def Exec : Type := Nat → ProcResult

/-- The filesystem as the script observes it. -/
structure FS where
  isDir : String → Bool
  isFile : String → Bool
  listdir : String → List String
  abspath : String → String

/-- One decompile invocation: the arguments of an
ilspycmd -p dllPath -o outputFolder spawn. -/
structure Invocation where
  dllPath : String
  outputFolder : String
deriving DecidableEq, Repr

/-- Accumulated observable effects of a run: all spawned commands (in
order), the decompile invocations among them, stderr lines
(print_error) and stdout lines (print_info and bare print). -/
structure St where
  spawned : List (List String)
  invs : List Invocation
  errs : List String
  infos : List String
deriving DecidableEq, Repr

/-- The empty starting state. -/
def St.empty : St := ⟨[], [], [], []⟩

/-- How the process ends: a sys.exit (or normal interpreter exit) with
a status code, or a crash from an uncaught exception (EOFError on an
exhausted console, KeyError on a missing PATH variable). -/
inductive ExitKind where
  | exited (code : Int)
  | crashed
deriving DecidableEq, Repr

/-- Continuation of a modelled code fragment: either control flows on
with a value, or the process has terminated. -/
inductive Step (α : Type) where
  | next (st : St) (a : α)
  | halt (st : St) (e : ExitKind)
deriving Repr

/-- print_error prefixes its message (goes to stderr). -/
def print_error_msg (message : String) : String :=
  "❌ Error: " ++ message

/-- print_info prefixes its message (goes to stdout). -/
def print_info_msg (message : String) : String :=
  "✅ Info: " ++ message

/-- run_command: spawn the command (its result given by the oracle at
the current spawn index).  A missing executable is a FileNotFoundError:
the handler prints an error naming command[0] and calls sys.exit(1).  A
non-zero return code with check enabled is a CalledProcessError: the
handler prints the exit code and the stripped stderr and calls
sys.exit(returncode).  Otherwise the completed process is returned.
The sys.exit calls raise SystemExit, which is not a subclass of
Exception and therefore escapes any except Exception handler of a
caller. -/
def run_command (exec : Exec) (st : St) (command : List String) (check : Bool) :
    Step (Int × String × String) :=
  let st1 : St := { st with spawned := st.spawned ++ [command] }
  match exec st.spawned.length with
  | ProcResult.missing =>
      Step.halt { st1 with errs := st1.errs ++
        [print_error_msg ("Command not found: \x27" ++ command.headD "" ++
          "\x27. Please ensure it\x27s in your PATH.")] } (ExitKind.exited 1)
  | ProcResult.completed rc out err =>
      if check && !(rc == 0) then
        Step.halt { st1 with errs := st1.errs ++
          [print_error_msg ("Command failed with exit code " ++ toString rc ++
            ": \x27" ++ String.intercalate " " command ++ "\x27"),
           print_error_msg ("Stderr: " ++ pyStrip err)] } (ExitKind.exited rc)
      else Step.next st1 (rc, out, err)

/-- decompile_dll: print the banner, spawn
ilspycmd -p dll_path -o output_folder through run_command (check
enabled), then print the completion messages. -/
def decompile_dll (exec : Exec) (fs : FS) (st : St) (dll_path output_folder : String) :
    Step Unit :=
  let st0 : St := { st with
    infos := st.infos ++ [print_info_msg ("Decompiling \x27" ++ dll_path ++
      "\x27 to \x27" ++ output_folder ++ "\x27...")],
    invs := st.invs ++ [⟨dll_path, output_folder⟩] }
  match run_command exec st0 ["ilspycmd", "-p", dll_path, "-o", output_folder] true with
  | Step.halt st e => Step.halt st e
  | Step.next st1 _ =>
      Step.next { st1 with infos := st1.infos ++
        [print_info_msg "Decompilation complete!",
         print_info_msg ("Output saved to: " ++ fs.abspath output_folder)] } ()

/-- The for-loop at the end of handle_directory_input: one
decompile_dll call per listed file, into a sub-folder of the output
folder named by the file name with its extension split off. -/
def decompile_loop (exec : Exec) (fs : FS) (dir_path output_folder : String) :
    St → List String → Step Unit
  | st, [] => Step.next st ()
  | st, f :: rest =>
      match decompile_dll exec fs st (pyjoin dir_path f)
          (pyjoin output_folder (splitext f).1) with
      | Step.halt st' e => Step.halt st' e
      | Step.next st' _ => decompile_loop exec fs dir_path output_folder st' rest

/-- The statement after the for-loop of handle_directory_input: print
the overall success message (skipped when the loop terminated the
process). -/
def after_loop : Step Unit → Step Unit
  | Step.halt st e => Step.halt st e
  | Step.next st _ =>
      Step.next { st with infos := st.infos ++
        [print_info_msg "All selected .dll files have been decompiled successfully."] } ()

/-- handle_directory_input: announce the directory, ask the first
confirmation (lowercased and stripped answer compared with y; any
other answer is a clean sys.exit(0), a KeyboardInterrupt likewise),
list the entries of the directory whose names end in .dll (sys.exit(1)
with an error when there are none), print them, ask the second
confirmation, and on y decompile each listed file into its derived
sub-folder; declining the second prompt prints a message and returns
normally. -/
def handle_directory_input (exec : Exec) (fs : FS) (st : St)
    (dir_path output_folder : String) (console : List (Option String)) : Step Unit :=
  let st := { st with infos := st.infos ++
    [print_info_msg ("The path \x27" ++ dir_path ++ "\x27 is a directory.")] }
  match console with
  | [] => Step.halt st ExitKind.crashed
  | none :: _ =>
      Step.halt { st with infos := st.infos ++ ["\nOperation cancelled by user."] }
        (ExitKind.exited 0)
  | some r :: rest =>
      let choice := pyStrip (pyLower r)
      if choice ≠ "y" then
        Step.halt { st with infos := st.infos ++
          [print_info_msg "Operation cancelled. Please re-run the script with a valid file path."] }
          (ExitKind.exited 0)
      else
        let dll_files := (fs.listdir dir_path).filter (fun f => pyEndsWith f ".dll")
        if dll_files = [] then
          Step.halt { st with errs := st.errs ++
            [print_error_msg ("No .dll files found in \x27" ++ dir_path ++ "\x27.")] }
            (ExitKind.exited 1)
        else
          let st := { st with infos := (st.infos ++
            [print_info_msg "Found the following .dll files:"] ++
            dll_files.map (fun f => "  - " ++ f)) }
          match rest with
          | [] => Step.halt st ExitKind.crashed
          | none :: _ =>
              Step.halt { st with infos := st.infos ++ ["\nOperation cancelled by user."] }
                (ExitKind.exited 0)
          | some r2 :: _ =>
              let confirm_choice := pyStrip (pyLower r2)
              if confirm_choice = "y" then
                after_loop (decompile_loop exec fs dir_path output_folder st dll_files)
              else
                Step.next { st with infos := st.infos ++
                  [print_info_msg "Operation cancelled. You can re-run the script to select a different path."] } ()

/-- The normalization applied to each console path input in the main
loop: input(...).strip(), then .strip("\x27\x22"), then
os.path.expanduser. -/
def resolveInput (env : Env) (pwd : Pwd) (s : String) : String :=
  expanduser env pwd (stripQuotes (pyStrip s))

/-- The while-True input loop of main: read a source path and an output
folder (KeyboardInterrupt at either read is a clean sys.exit(0), an
exhausted console an EOFError crash), strip whitespace then quotes and
expand a leading tilde on both, and dispatch: a directory goes to
handle_directory_input and the loop ends; a file ending in .dll is
decompiled and the loop ends; a file not ending in .dll prints an error
and re-prompts; anything else prints an error and re-prompts. -/
def main_loop (exec : Exec) (fs : FS) (pwd : Pwd) (env : Env) :
    St → List (Option String) → Step Unit
  | st, [] => Step.halt st ExitKind.crashed
  | st, none :: _ =>
      Step.halt { st with infos := st.infos ++ ["\nOperation cancelled by user."] }
        (ExitKind.exited 0)
  | st, some _ :: [] => Step.halt st ExitKind.crashed
  | st, some _ :: none :: _ =>
      Step.halt { st with infos := st.infos ++ ["\nOperation cancelled by user."] }
        (ExitKind.exited 0)
  | st, some p :: some o :: rest =>
      let path := resolveInput env pwd p
      let output_folder := resolveInput env pwd o
      if fs.isDir path then
        handle_directory_input exec fs st path output_folder rest
      else if fs.isFile path then
        if pyEndsWith path ".dll" = false then
          main_loop exec fs pwd env { st with errs := st.errs ++
            [print_error_msg "The selected file is not a .dll file. Please try again."] } rest
        else
          decompile_dll exec fs st path output_folder
      else
        main_loop exec fs pwd env { st with errs := st.errs ++
          [print_error_msg ("The path \x27" ++ path ++
            "\x27 is not a valid file or directory. Please try again.")] } rest

/-- Module-level USER = os.environ.get("USER"): retrieved and never
used afterwards. -/
def USER (env : Env) : Option String := env "USER"

/-- main (named main_program here: Lean reserves main for executable
entry points): probe dotnet --version (a failure inside run_command is a
SystemExit, which escapes the except Exception handler, so the
handler body is unreachable for the modelled failure modes); compute
expanduser("~/.dotnet/tools") and append it to PATH unless it already
occurs in PATH as a substring (os.environ["PATH"] raises KeyError when
PATH is unset); probe ilspycmd --version (again any modelled failure is
a SystemExit escaping the except Exception handler, so the
dotnet tool install branch of the handler is unreachable); then run the
input loop.  Returns the final Step together with the final
environment. -/
def main_program (exec : Exec) (fs : FS) (pwd : Pwd) (env : Env)
    (console : List (Option String)) : Step Unit × Env :=
  let st0 : St := { St.empty with infos := [print_info_msg "Checking for .NET SDK..."] }
  match run_command exec st0 ["dotnet", "--version"] true with
  | Step.halt st e => (Step.halt st e, env)
  | Step.next st r =>
      let st := { st with infos := st.infos ++
        [print_info_msg (".NET SDK found: Version " ++ pyStrip r.2.1),
         print_info_msg "Ensuring .dotnet/tools is in PATH..."] }
      let dotnet_tools_path := expanduser env pwd "~/.dotnet/tools"
      match env "PATH" with
      | none => (Step.halt st ExitKind.crashed, env)
      | some pathVal =>
          let stEnv : St × Env :=
            if pyContains pathVal dotnet_tools_path then (st, env)
            else ({ st with infos := st.infos ++
                    [print_info_msg ("Temporarily adding " ++ dotnet_tools_path ++ " to PATH.")] },
                  fun k => if k = "PATH" then some (pathVal ++ ":" ++ dotnet_tools_path) else env k)
          let st := stEnv.1
          let env' := stEnv.2
          let st := { st with infos := st.infos ++ [print_info_msg "Checking for ilspycmd..."] }
          match run_command exec st ["ilspycmd", "--version"] true with
          | Step.halt st e => (Step.halt st e, env')
          | Step.next st _ =>
              let st := { st with infos := st.infos ++
                [print_info_msg "ilspycmd is already installed."] }
              (main_loop exec fs pwd env' st console, env')

/-- Invocations recorded at the end of a step. -/
def stepInvs : Step Unit → List Invocation
  | Step.next st _ => st.invs
  | Step.halt st _ => st.invs

/-- Spawned commands recorded at the end of a step. -/
def stepSpawned : Step Unit → List (List String)
  | Step.next st _ => st.spawned
  | Step.halt st _ => st.spawned

/-- Stderr lines recorded at the end of a step. -/
def stepErrs : Step Unit → List String
  | Step.next st _ => st.errs
  | Step.halt st _ => st.errs

/-- Stdout lines recorded at the end of a step. -/
def stepInfos : Step Unit → List String
  | Step.next st _ => st.infos
  | Step.halt st _ => st.infos

/-- Exit recorded in a step, if the process terminated inside the
modelled fragment. -/
def stepExit : Step Unit → Option ExitKind
  | Step.next _ _ => none
  | Step.halt _ e => some e

/-- The exit of the whole process once the modelled fragment is all
that remains: a normal return from main is an interpreter exit with
status 0 (in main, both terminal dispatch branches are followed by
break and main ends). -/
def finalExit : Step Unit → ExitKind
  | Step.next _ _ => ExitKind.exited 0
  | Step.halt _ e => e

/-- A prefix is found by infixB. -/
theorem infixB_of_head_match {l₁ l₂ : List Char} (h : l₁ <+: l₂) : infixB l₁ l₂ = true := by
  cases l₂ with
  | nil => simp [infixB, List.isPrefixOf_iff_prefix, h]
  | cons c t => simp [infixB, List.isPrefixOf_iff_prefix, h]

/-- A list occurring as a contiguous run is found by infixB. -/
theorem infixB_complete {l₁ l₂ : List Char} (h : l₁ <:+: l₂) : infixB l₁ l₂ = true := by
  obtain ⟨s, t, rfl⟩ := h
  induction s with
  | nil => exact infixB_of_head_match ⟨t, rfl⟩
  | cons c s ih =>
      simp only [List.cons_append, infixB, Bool.or_eq_true]
      exact Or.inr ih

/-- A character of a string is found by the substring test. -/
theorem pyContains_of_mem {s : String} {c : Char} (h : c ∈ s.data) :
    pyContains s (String.mk [c]) = true := by
  obtain ⟨u, v, huv⟩ := List.append_of_mem h
  exact infixB_complete ⟨u, v, by simp [huv]⟩

/-- The middle part of a concatenation is found by the substring test. -/
theorem pyContains_append_middle (a b c : String) : pyContains (a ++ b ++ c) b = true := by
  refine infixB_complete ⟨a.data, c.data, ?_⟩
  simp [String.data_append]

/-- A suffix survives prepending on the left. -/
theorem pyEndsWith_append {s suf : String} (x : String) (h : pyEndsWith s suf = true) :
    pyEndsWith (x ++ s) suf = true := by
  unfold pyEndsWith at *
  rw [List.isSuffixOf_iff_suffix] at *
  rw [String.data_append]
  exact h.trans (List.suffix_append x.data s.data)

/-- posixpath.join preserves a suffix of its second component. -/
theorem pyEndsWith_pyjoin {f suf : String} (a : String) (h : pyEndsWith f suf = true) :
    pyEndsWith (pyjoin a f) suf = true := by
  unfold pyjoin
  split
  · exact h
  · split
    · exact pyEndsWith_append a h
    · rw [String.append_assoc]
      exact pyEndsWith_append a (pyEndsWith_append "/" h)

/-- The two parts of splitextList reassemble the input. -/
theorem splitextList_append (p : List Char) :
    (splitextList p).1 ++ (splitextList p).2 = p := by
  unfold splitextList
  split
  · simp
  · split
    · split
      · simp [List.take_append_drop]
      · simp
    · split
      · split
        · simp [List.take_append_drop]
        · simp
      · simp

/-- The base part of splitextList uses only characters of the input. -/
theorem splitextList_fst_subset (p : List Char) : (splitextList p).1 ⊆ p := by
  unfold splitextList
  split
  · exact fun _ h => h
  · split
    · split
      · simpa using List.take_subset _ p
      · exact fun _ h => h
    · split
      · split
        · simpa using List.take_subset _ p
        · exact fun _ h => h
      · exact fun _ h => h

/-- Strings with equal character data are equal. -/
theorem string_data_inj {s t : String} (h : s.data = t.data) : s = t := by
  cases s
  cases t
  exact congrArg String.mk h

/-- posixpath.join with a fixed first component is injective on second
components that do not begin with the separator. -/
theorem pyjoin_right_inj {out s₁ s₂ : String}
    (h₁ : pyStartsWith s₁ "/" = false) (h₂ : pyStartsWith s₂ "/" = false)
    (h : pyjoin out s₁ = pyjoin out s₂) : s₁ = s₂ := by
  unfold pyjoin at h
  rw [h₁, h₂] at h
  simp only [Bool.false_eq_true, if_false] at h
  by_cases hc : (out = "" || pyEndsWith out "/") = true
  · rw [if_pos hc, if_pos hc] at h
    have := congrArg String.data h
    rw [String.data_append, String.data_append] at this
    exact string_data_inj (List.append_cancel_left this)
  · rw [if_neg hc, if_neg hc] at h
    have := congrArg String.data h
    rw [String.data_append, String.data_append] at this
    exact string_data_inj (List.append_cancel_left this)

/-- A string whose data does not contain the separator does not start
with it. -/
theorem pyStartsWith_slash_false {s : String} (h : Char.ofNat 47 ∉ s.data) :
    pyStartsWith s "/" = false := by
  by_contra hb
  rw [Bool.not_eq_false, pyStartsWith, List.isPrefixOf_iff_prefix] at hb
  obtain ⟨t, ht⟩ := hb
  apply h
  rw [← ht]
  have : "/".data = [Char.ofNat 47] := by decide
  rw [this]
  exact List.mem_append_left _ (List.mem_singleton_self _)

/-- run_command on a successfully completing command only records the
spawn and returns the completed process. -/
theorem run_command_ok {exec : Exec} {st : St} {o e : String} (command : List String)
    (check : Bool) (h : exec st.spawned.length = ProcResult.completed 0 o e) :
    run_command exec st command check
      = Step.next { st with spawned := st.spawned ++ [command] } (0, o, e) := by
  simp [run_command, h]

/-- decompile_dll on a successful spawn: records the spawn and the
invocation, prints three info lines, touches nothing else. -/
theorem decompile_dll_ok {exec : Exec} {fs : FS} {st : St} {o e : String} (d out : String)
    (h : exec st.spawned.length = ProcResult.completed 0 o e) :
    decompile_dll exec fs st d out = Step.next
      { spawned := st.spawned ++ [["ilspycmd", "-p", d, "-o", out]],
        invs := st.invs ++ [⟨d, out⟩],
        errs := st.errs,
        infos := st.infos ++
          [print_info_msg ("Decompiling \x27" ++ d ++ "\x27 to \x27" ++ out ++ "\x27..."),
           print_info_msg "Decompilation complete!",
           print_info_msg ("Output saved to: " ++ fs.abspath out)] } () := by
  simp [decompile_dll, run_command, h]

/-- decompile_loop under an always-successful oracle: returns normally,
appending exactly one invocation per listed file, each into the
sub-folder derived from the file name; stderr is untouched. -/
theorem decompile_loop_ok {exec : Exec} {fs : FS} (dir outf : String)
    (hex : ∀ n, ∃ o e, exec n = ProcResult.completed 0 o e) :
    ∀ (files : List String) (st : St), ∃ st',
      decompile_loop exec fs dir outf st files = Step.next st' () ∧
      st'.invs = st.invs ++
        files.map (fun f => Invocation.mk (pyjoin dir f) (pyjoin outf (splitext f).1)) ∧
      st'.errs = st.errs := by
  intro files
  induction files with
  | nil => exact fun st => ⟨st, rfl, by simp, rfl⟩
  | cons f rest ih =>
      intro st
      obtain ⟨o, e, h⟩ := hex st.spawned.length
      have hd := @decompile_dll_ok exec fs st o e
        (pyjoin dir f) (pyjoin outf (splitext f).1) h
      obtain ⟨st', hloop, hinv, herr⟩ := ih
        { spawned := st.spawned ++ [["ilspycmd", "-p", pyjoin dir f, "-o",
            pyjoin outf (splitext f).1]],
          invs := st.invs ++ [⟨pyjoin dir f, pyjoin outf (splitext f).1⟩],
          errs := st.errs,
          infos := st.infos ++
            [print_info_msg ("Decompiling \x27" ++ pyjoin dir f ++ "\x27 to \x27" ++
              pyjoin outf (splitext f).1 ++ "\x27..."),
             print_info_msg "Decompilation complete!",
             print_info_msg ("Output saved to: " ++ fs.abspath (pyjoin outf (splitext f).1))] }
      refine ⟨st', ?_, ?_, ?_⟩
      · rw [decompile_loop, hd]
        exact hloop
      · rw [hinv]
        simp
      · rw [herr]

/-- after_loop only adds a stdout line: invocations unchanged. -/
theorem stepInvs_after_loop (s : Step Unit) : stepInvs (after_loop s) = stepInvs s := by
  cases s <;> rfl

/-- after_loop only adds a stdout line: stderr unchanged. -/
theorem stepErrs_after_loop (s : Step Unit) : stepErrs (after_loop s) = stepErrs s := by
  cases s <;> rfl

/-- after_loop only adds a stdout line: termination unchanged. -/
theorem stepExit_after_loop (s : Step Unit) : stepExit (after_loop s) = stepExit s := by
  cases s <;> rfl

/-- Invocations of a successful decompile_loop, as a projection. -/
theorem stepInvs_decompile_loop_ok {exec : Exec} {fs : FS} (dir outf : String)
    (hex : ∀ n, ∃ o e, exec n = ProcResult.completed 0 o e) (files : List String) (st : St) :
    stepInvs (decompile_loop exec fs dir outf st files) = st.invs ++
      files.map (fun f => Invocation.mk (pyjoin dir f) (pyjoin outf (splitext f).1)) := by
  obtain ⟨st', hl, hinv, _⟩ := decompile_loop_ok dir outf hex files st
  rw [hl, stepInvs, hinv]

/-- Stderr of a successful decompile_loop, as a projection. -/
theorem stepErrs_decompile_loop_ok {exec : Exec} {fs : FS} (dir outf : String)
    (hex : ∀ n, ∃ o e, exec n = ProcResult.completed 0 o e) (files : List String) (st : St) :
    stepErrs (decompile_loop exec fs dir outf st files) = st.errs := by
  obtain ⟨st', hl, _, herr⟩ := decompile_loop_ok dir outf hex files st
  rw [hl, stepErrs, herr]

/-- A successful decompile_loop does not terminate the process. -/
theorem stepExit_decompile_loop_ok {exec : Exec} {fs : FS} (dir outf : String)
    (hex : ∀ n, ∃ o e, exec n = ProcResult.completed 0 o e) (files : List String) (st : St) :
    stepExit (decompile_loop exec fs dir outf st files) = none := by
  obtain ⟨st', hl, _, _⟩ := decompile_loop_ok dir outf hex files st
  rw [hl, stepExit]

/-- Declining the first directory prompt: sys.exit(0) after the cancel
message; nothing else happens. -/
theorem hdi_decline1 {exec : Exec} {fs : FS} {st : St} {dir outf r : String}
    {rest : List (Option String)} (h : pyStrip (pyLower r) ≠ "y") :
    handle_directory_input exec fs st dir outf (some r :: rest) = Step.halt
      { st with infos := st.infos ++
          [print_info_msg ("The path \x27" ++ dir ++ "\x27 is a directory."),
           print_info_msg "Operation cancelled. Please re-run the script with a valid file path."] }
      (ExitKind.exited 0) := by
  simp [handle_directory_input, h]

/-- First prompt confirmed but no entry of the directory ends in .dll:
error message and sys.exit(1). -/
theorem hdi_nofiles {exec : Exec} {fs : FS} {st : St} {dir outf r : String}
    {rest : List (Option String)} (h1 : pyStrip (pyLower r) = "y")
    (hempty : (fs.listdir dir).filter (fun f => pyEndsWith f ".dll") = []) :
    handle_directory_input exec fs st dir outf (some r :: rest) = Step.halt
      { st with
        infos := st.infos ++ [print_info_msg ("The path \x27" ++ dir ++ "\x27 is a directory.")],
        errs := st.errs ++ [print_error_msg ("No .dll files found in \x27" ++ dir ++ "\x27.")] }
      (ExitKind.exited 1) := by
  simp [handle_directory_input, h1, hempty]

/-- Both prompts confirmed, all spawns succeed: one invocation per
matching entry is appended, stderr untouched, no termination inside. -/
theorem hdi_yy_proj {exec : Exec} {fs : FS} {st : St} {dir outf r1 r2 : String}
    {rest : List (Option String)}
    (hex : ∀ n, ∃ o e, exec n = ProcResult.completed 0 o e)
    (h1 : pyStrip (pyLower r1) = "y") (h2 : pyStrip (pyLower r2) = "y")
    (hne : (fs.listdir dir).filter (fun f => pyEndsWith f ".dll") ≠ []) :
    stepInvs (handle_directory_input exec fs st dir outf (some r1 :: some r2 :: rest))
        = st.invs ++ ((fs.listdir dir).filter (fun f => pyEndsWith f ".dll")).map
            (fun f => Invocation.mk (pyjoin dir f) (pyjoin outf (splitext f).1)) ∧
      stepErrs (handle_directory_input exec fs st dir outf (some r1 :: some r2 :: rest)) = st.errs ∧
      stepExit (handle_directory_input exec fs st dir outf (some r1 :: some r2 :: rest)) = none := by
  simp only [handle_directory_input, h1, h2, hne, ne_eq, not_true_eq_false, if_false,
    not_false_eq_true, if_true, reduceIte]
  refine ⟨?_, ?_, ?_⟩
  · rw [stepInvs_after_loop, stepInvs_decompile_loop_ok dir outf hex]
  · rw [stepErrs_after_loop, stepErrs_decompile_loop_ok dir outf hex]
  · rw [stepExit_after_loop, stepExit_decompile_loop_ok dir outf hex]

/-- First prompt confirmed, matching entries exist, second prompt
declined: the function returns normally with no invocation and no
stderr output. -/
theorem hdi_decline2_proj {exec : Exec} {fs : FS} {st : St} {dir outf r1 r2 : String}
    {rest : List (Option String)}
    (h1 : pyStrip (pyLower r1) = "y") (h2 : pyStrip (pyLower r2) ≠ "y")
    (hne : (fs.listdir dir).filter (fun f => pyEndsWith f ".dll") ≠ []) :
    stepInvs (handle_directory_input exec fs st dir outf (some r1 :: some r2 :: rest)) = st.invs ∧
      stepErrs (handle_directory_input exec fs st dir outf (some r1 :: some r2 :: rest)) = st.errs ∧
      stepExit (handle_directory_input exec fs st dir outf (some r1 :: some r2 :: rest)) = none := by
  simp [handle_directory_input, h1, h2, hne, stepInvs, stepErrs, stepExit]

/-- Canonical form of a prompt answer: y when the lowercased, stripped
answer is exactly y, n otherwise. -/
def canonResp (r : String) : String :=
  if pyStrip (pyLower r) = "y" then "y" else "n"

/-- The behaviour of handle_directory_input depends on each prompt
answer only through whether its lowercased, stripped form equals y. -/
theorem hdi_canon {exec : Exec} {fs : FS} {st : St} {dir outf : String}
    (r1 r2 : String) (rest : List (Option String)) :
    handle_directory_input exec fs st dir outf (some r1 :: some r2 :: rest)
      = handle_directory_input exec fs st dir outf
          (some (canonResp r1) :: some (canonResp r2) :: rest) := by
  by_cases h1 : pyStrip (pyLower r1) = "y"
  · have hc1 : canonResp r1 = "y" := by rw [canonResp, if_pos h1]
    rw [hc1]
    have hy : pyStrip (pyLower "y") = "y" := by decide
    by_cases h2 : pyStrip (pyLower r2) = "y"
    · have hc2 : canonResp r2 = "y" := by rw [canonResp, if_pos h2]
      rw [hc2]
      simp only [handle_directory_input, h1, h2, hy]
    · have hc2 : canonResp r2 = "n" := by rw [canonResp, if_neg h2]
      rw [hc2]
      have hn : pyStrip (pyLower "n") = "n" := by decide
      have hnn : ¬ (("n" : String) = "y") := by decide
      simp [handle_directory_input, h1, h2, hy, hn, hnn]
  · have hc1 : canonResp r1 = "n" := by rw [canonResp, if_neg h1]
    rw [hc1]
    have hn : pyStrip (pyLower "n") ≠ "y" := by decide
    rw [hdi_decline1 h1, hdi_decline1 hn]

/-- Dispatch of the main loop on a directory path. -/
theorem main_loop_dir {exec : Exec} {fs : FS} {pwd : Pwd} {env : Env} {st : St}
    {p o : String} {rest : List (Option String)}
    (hdir : fs.isDir (resolveInput env pwd p) = true) :
    main_loop exec fs pwd env st (some p :: some o :: rest)
      = handle_directory_input exec fs st (resolveInput env pwd p)
          (resolveInput env pwd o) rest := by
  simp [main_loop, hdir]

/-- decompile_dll always records exactly its own invocation, whether
the spawn succeeds or terminates the process. -/
theorem stepInvs_decompile_dll {exec : Exec} {fs : FS} {st : St} (d out : String) :
    stepInvs (decompile_dll exec fs st d out) = st.invs ++ [⟨d, out⟩] := by
  rcases h : exec st.spawned.length with _ | ⟨rc, o', e'⟩
  · simp [decompile_dll, run_command, h, stepInvs]
  · by_cases hrc : rc = 0
    · subst hrc
      simp [decompile_dll, run_command, h, stepInvs]
    · simp [decompile_dll, run_command, h, hrc, stepInvs]

/-- Every invocation present after decompile_loop was either already
recorded or belongs to one of the looped-over files. -/
theorem mem_stepInvs_decompile_loop {exec : Exec} {fs : FS} (dir outf : String) :
    ∀ (files : List String) (st : St) (inv : Invocation),
      inv ∈ stepInvs (decompile_loop exec fs dir outf st files) →
      inv ∈ st.invs ∨ ∃ f ∈ files,
        inv = Invocation.mk (pyjoin dir f) (pyjoin outf (splitext f).1) := by
  intro files
  induction files with
  | nil => intro st inv h; exact Or.inl h
  | cons f rest ih =>
      intro st inv h
      have hdll := @stepInvs_decompile_dll exec fs st
        (pyjoin dir f) (pyjoin outf (splitext f).1)
      rcases hd : decompile_dll exec fs st (pyjoin dir f) (pyjoin outf (splitext f).1) with
        ⟨st', u⟩ | ⟨st', e⟩
      · rw [decompile_loop, hd] at h
        rw [hd, stepInvs] at hdll
        rcases ih st' inv h with hmem | ⟨g, hg, hinv⟩
        · rw [hdll] at hmem
          rcases List.mem_append.mp hmem with hmem | hmem
          · exact Or.inl hmem
          · exact Or.inr ⟨f, List.mem_cons_self f rest, List.mem_singleton.mp hmem⟩
        · exact Or.inr ⟨g, List.mem_cons_of_mem f hg, hinv⟩
      · rw [decompile_loop, hd] at h
        rw [hd, stepInvs] at hdll
        rw [stepInvs] at h
        rw [hdll] at h
        rcases List.mem_append.mp h with hmem | hmem
        · exact Or.inl hmem
        · exact Or.inr ⟨f, List.mem_cons_self f rest, List.mem_singleton.mp hmem⟩

/-- Every invocation present after handle_directory_input was either
already recorded or decompiles an entry whose name ends in .dll into
the derived sub-folder. -/
theorem mem_stepInvs_hdi {exec : Exec} {fs : FS} (dir outf : String) :
    ∀ (console : List (Option String)) (st : St) (inv : Invocation),
      inv ∈ stepInvs (handle_directory_input exec fs st dir outf console) →
      inv ∈ st.invs ∨ ∃ f, pyEndsWith f ".dll" = true ∧
        inv = Invocation.mk (pyjoin dir f) (pyjoin outf (splitext f).1) := by
  intro console st inv h
  match console with
  | [] => exact Or.inl (by simpa [handle_directory_input, stepInvs] using h)
  | none :: rest => exact Or.inl (by simpa [handle_directory_input, stepInvs] using h)
  | some r :: rest =>
      by_cases h1 : pyStrip (pyLower r) = "y"
      · by_cases hem : (fs.listdir dir).filter (fun f => pyEndsWith f ".dll") = []
        · rw [hdi_nofiles h1 hem, stepInvs] at h
          exact Or.inl h
        · match rest with
          | [] =>
              refine Or.inl ?_
              simpa [handle_directory_input, h1, hem, stepInvs] using h
          | none :: rest2 =>
              refine Or.inl ?_
              simpa [handle_directory_input, h1, hem, stepInvs] using h
          | some r2 :: rest2 =>
              by_cases h2 : pyStrip (pyLower r2) = "y"
              · have hred : handle_directory_input exec fs st dir outf
                    (some r :: some r2 :: rest2) = after_loop
                      (decompile_loop exec fs dir outf
                        { st with infos := (st.infos ++
                            [print_info_msg ("The path \x27" ++ dir ++ "\x27 is a directory."),
                             print_info_msg "Found the following .dll files:"] ++
                            ((fs.listdir dir).filter (fun f => pyEndsWith f ".dll")).map
                              (fun f => "  - " ++ f)) }
                        ((fs.listdir dir).filter (fun f => pyEndsWith f ".dll"))) := by
                  simp [handle_directory_input, h1, h2, hem]
                rw [hred, stepInvs_after_loop] at h
                rcases mem_stepInvs_decompile_loop dir outf _ _ inv h with hmem | ⟨f, hf, hinv⟩
                · exact Or.inl hmem
                · exact Or.inr ⟨f, (List.mem_filter.mp hf).2, hinv⟩
              · rcases @hdi_decline2_proj exec fs st dir outf r r2 rest2 h1 h2 hem
                  with ⟨hi, _, _⟩
                rw [hi] at h
                exact Or.inl h
      · rw [hdi_decline1 h1, stepInvs] at h
        exact Or.inl h

/-- Bounded-length version of the main-loop invariant: every
invocation the loop adds decompiles a path ending in .dll. -/
theorem mem_stepInvs_main_loop_aux {exec : Exec} {fs : FS} {pwd : Pwd} {env : Env} :
    ∀ (n : Nat) (console : List (Option String)), console.length ≤ n →
      ∀ (st : St) (inv : Invocation),
        inv ∈ stepInvs (main_loop exec fs pwd env st console) →
        inv ∈ st.invs ∨ pyEndsWith inv.dllPath ".dll" = true := by
  intro n
  induction n with
  | zero =>
      intro console hlen st inv h
      have hnil : console = [] := List.eq_nil_of_length_eq_zero (Nat.le_zero.mp hlen)
      subst hnil
      exact Or.inl (by simpa [main_loop, stepInvs] using h)
  | succ n ih =>
      intro console hlen st inv h
      match console with
      | [] => exact Or.inl (by simpa [main_loop, stepInvs] using h)
      | none :: rest => exact Or.inl (by simpa [main_loop, stepInvs] using h)
      | [some p] => exact Or.inl (by simpa [main_loop, stepInvs] using h)
      | some p :: none :: rest => exact Or.inl (by simpa [main_loop, stepInvs] using h)
      | some p :: some o :: rest =>
          have hrestlen : rest.length ≤ n := by
            simp only [List.length_cons] at hlen
            omega
          by_cases hdir : fs.isDir (resolveInput env pwd p) = true
          · rw [main_loop_dir hdir] at h
            rcases mem_stepInvs_hdi _ _ rest st inv h with hmem | ⟨f, hf, hinv⟩
            · exact Or.inl hmem
            · refine Or.inr ?_
              rw [hinv]
              exact pyEndsWith_pyjoin _ hf
          · by_cases hfile : fs.isFile (resolveInput env pwd p) = true
            · by_cases hdll : pyEndsWith (resolveInput env pwd p) ".dll" = false
              · have hred : main_loop exec fs pwd env st (some p :: some o :: rest)
                    = main_loop exec fs pwd env { st with errs := st.errs ++
                        [print_error_msg "The selected file is not a .dll file. Please try again."] }
                        rest := by
                  simp [main_loop, hdir, hfile, hdll]
                rw [hred] at h
                rcases ih rest hrestlen _ inv h with hmem | hend
                · exact Or.inl (by simpa using hmem)
                · exact Or.inr hend
              · have hdll' : pyEndsWith (resolveInput env pwd p) ".dll" = true := by
                  simpa using hdll
                have hred : main_loop exec fs pwd env st (some p :: some o :: rest)
                    = decompile_dll exec fs st (resolveInput env pwd p)
                        (resolveInput env pwd o) := by
                  simp [main_loop, hdir, hfile, hdll]
                rw [hred, stepInvs_decompile_dll] at h
                rcases List.mem_append.mp h with hmem | hmem
                · exact Or.inl hmem
                · rw [List.mem_singleton.mp hmem]
                  exact Or.inr hdll'
            · have hred : main_loop exec fs pwd env st (some p :: some o :: rest)
                  = main_loop exec fs pwd env { st with errs := st.errs ++
                      [print_error_msg ("The path \x27" ++ resolveInput env pwd p ++
                        "\x27 is not a valid file or directory. Please try again.")] }
                      rest := by
                simp [main_loop, hdir, hfile]
              rw [hred] at h
              rcases ih rest hrestlen _ inv h with hmem | hend
              · exact Or.inl (by simpa using hmem)
              · exact Or.inr hend

/-- Every invocation the main loop adds decompiles a path whose name
ends in .dll. -/
theorem mem_stepInvs_main_loop {exec : Exec} {fs : FS} {pwd : Pwd} {env : Env}
    (console : List (Option String)) (st : St) (inv : Invocation)
    (h : inv ∈ stepInvs (main_loop exec fs pwd env st console)) :
    inv ∈ st.invs ∨ pyEndsWith inv.dllPath ".dll" = true :=
  mem_stepInvs_main_loop_aux console.length console le_rfl st inv h

/-- A string that the substring test says does not contain the
separator has no separator character in its data. -/
theorem slash_not_mem_of_not_contains {f : String} (h : pyContains f "/" = false) :
    Char.ofNat 47 ∉ f.data := by
  intro hm
  have hc := pyContains_of_mem hm
  have hs : String.mk [Char.ofNat 47] = "/" := by decide
  rw [hs, h] at hc
  exact absurd hc (by decide)

/-- Under the no-separator and real-extension provisos, the derived
sub-folders of the matching entries are pairwise distinct. -/
theorem derived_subfolders_nodup (listing : List String) (outf : String)
    (hnd : listing.Nodup)
    (hns : ∀ f ∈ listing, pyContains f "/" = false)
    (hext : ∀ f ∈ listing.filter (fun f => pyEndsWith f ".dll"), (splitext f).2 = ".dll") :
    ((listing.filter (fun f => pyEndsWith f ".dll")).map
      (fun f => pyjoin outf (splitext f).1)).Nodup := by
  refine List.Nodup.map_on ?_ (hnd.filter _)
  intro x hx y hy hxy
  have hxl : x ∈ listing := List.mem_of_mem_filter hx
  have hyl : y ∈ listing := List.mem_of_mem_filter hy
  have hmx : Char.ofNat 47 ∉ (splitext x).1.data :=
    fun hm => slash_not_mem_of_not_contains (hns x hxl) (splitextList_fst_subset x.data hm)
  have hmy : Char.ofNat 47 ∉ (splitext y).1.data :=
    fun hm => slash_not_mem_of_not_contains (hns y hyl) (splitextList_fst_subset y.data hm)
  have hst : (splitext x).1 = (splitext y).1 :=
    pyjoin_right_inj (pyStartsWith_slash_false hmx) (pyStartsWith_slash_false hmy) hxy
  have hdx : x.data = (splitext x).1.data ++ ".dll".data := by
    rw [← congrArg String.data (hext x hx)]
    exact (splitextList_append x.data).symm
  have hdy : y.data = (splitext y).1.data ++ ".dll".data := by
    rw [← congrArg String.data (hext y hy)]
    exact (splitextList_append y.data).symm
  refine string_data_inj ?_
  rw [hdx, hdy, congrArg String.data hst]

/-- In the directory branch with both prompts confirmed and an
always-successful oracle, the main loop appends exactly one invocation
per matching entry, each into the sub-folder derived from the entry
name. -/
theorem main_loop_dir_yy_invs {exec : Exec} {fs : FS} {pwd : Pwd} {env : Env} {st : St}
    {p o r1 r2 : String} {rest : List (Option String)}
    (hex : ∀ n, ∃ out err, exec n = ProcResult.completed 0 out err)
    (hdir : fs.isDir (resolveInput env pwd p) = true)
    (h1 : pyStrip (pyLower r1) = "y") (h2 : pyStrip (pyLower r2) = "y")
    (hne : (fs.listdir (resolveInput env pwd p)).filter (fun f => pyEndsWith f ".dll") ≠ []) :
    stepInvs (main_loop exec fs pwd env st
        (some p :: some o :: some r1 :: some r2 :: rest))
      = st.invs ++ ((fs.listdir (resolveInput env pwd p)).filter
          (fun f => pyEndsWith f ".dll")).map
          (fun f => Invocation.mk (pyjoin (resolveInput env pwd p) f)
            (pyjoin (resolveInput env pwd o) (splitext f).1)) := by
  rw [main_loop_dir hdir]
  exact (hdi_yy_proj hex h1 h2 hne).1

/-- expanduser consults the environment only through HOME. -/
theorem expanduser_env_congr {env1 env2 : Env} (pwd : Pwd)
    (hH : env1 "HOME" = env2 "HOME") (path : String) :
    expanduser env1 pwd path = expanduser env2 pwd path := by
  simp only [expanduser, hH]

/-- Input normalization consults the environment only through HOME. -/
theorem resolveInput_env_congr {env1 env2 : Env} (pwd : Pwd)
    (hH : env1 "HOME" = env2 "HOME") (s : String) :
    resolveInput env1 pwd s = resolveInput env2 pwd s := by
  rw [resolveInput, resolveInput, expanduser_env_congr pwd hH]

/-- Bounded-length version: the main loop consults the environment only
through HOME. -/
theorem main_loop_env_congr_aux {exec : Exec} {fs : FS} {pwd : Pwd} {env1 env2 : Env}
    (hH : env1 "HOME" = env2 "HOME") :
    ∀ (n : Nat) (console : List (Option String)), console.length ≤ n → ∀ st : St,
      main_loop exec fs pwd env1 st console = main_loop exec fs pwd env2 st console := by
  intro n
  induction n with
  | zero =>
      intro console hlen st
      have hnil : console = [] := List.eq_nil_of_length_eq_zero (Nat.le_zero.mp hlen)
      subst hnil
      rfl
  | succ n ih =>
      intro console hlen st
      match console with
      | [] => rfl
      | none :: rest => rfl
      | [some p] => rfl
      | some p :: none :: rest => rfl
      | some p :: some o :: rest =>
          have hrestlen : rest.length ≤ n := by
            simp only [List.length_cons] at hlen
            omega
          have e1 : resolveInput env1 pwd p = resolveInput env2 pwd p :=
            resolveInput_env_congr pwd hH p
          have e2 : resolveInput env1 pwd o = resolveInput env2 pwd o :=
            resolveInput_env_congr pwd hH o
          simp only [main_loop, e1, e2]
          by_cases hdir : fs.isDir (resolveInput env2 pwd p) = true
          · simp [hdir]
          · by_cases hfile : fs.isFile (resolveInput env2 pwd p) = true
            · by_cases hdll : pyEndsWith (resolveInput env2 pwd p) ".dll" = false
              · simp only [hdir, hfile, hdll, Bool.false_eq_true, if_false, if_true]
                exact ih rest hrestlen _
              · simp [hdir, hfile, hdll]
            · simp only [hdir, hfile, Bool.false_eq_true, if_false]
              exact ih rest hrestlen _

/-- The main loop consults the environment only through HOME. -/
theorem main_loop_env_congr {exec : Exec} {fs : FS} {pwd : Pwd} {env1 env2 : Env}
    (hH : env1 "HOME" = env2 "HOME") (console : List (Option String)) (st : St) :
    main_loop exec fs pwd env1 st console = main_loop exec fs pwd env2 st console :=
  main_loop_env_congr_aux hH console.length console le_rfl st

/-- The final environment of a run whose SDK probe succeeds and whose
PATH is set: PATH is unchanged when the per-user tool directory already
occurs in it, and gets it appended (once, colon-separated) otherwise;
no other variable changes. -/
theorem main_program_env {exec : Exec} {fs : FS} {pwd : Pwd} {env : Env}
    {console : List (Option String)} {a b pathVal : String}
    (hd : exec 0 = ProcResult.completed 0 a b)
    (hp : env "PATH" = some pathVal) :
    (main_program exec fs pwd env console).2
      = if pyContains pathVal (expanduser env pwd "~/.dotnet/tools") then env
        else fun k => if k = "PATH"
          then some (pathVal ++ ":" ++ expanduser env pwd "~/.dotnet/tools")
          else env k := by
  by_cases hc : pyContains pathVal (expanduser env pwd "~/.dotnet/tools") = true
  · rcases h1 : exec 1 with _ | ⟨rc, o2, e2⟩
    · simp [main_program, St.empty, run_command, hd, hp, hc, h1]
    · by_cases hrc : rc = 0
      · subst hrc
        simp [main_program, St.empty, run_command, hd, hp, hc, h1]
      · simp [main_program, St.empty, run_command, hd, hp, hc, h1, hrc]
  · rcases h1 : exec 1 with _ | ⟨rc, o2, e2⟩
    · simp [main_program, St.empty, run_command, hd, hp, hc, h1]
    · by_cases hrc : rc = 0
      · subst hrc
        simp [main_program, St.empty, run_command, hd, hp, hc, h1]
      · simp [main_program, St.empty, run_command, hd, hp, hc, h1, hrc]

/-- The observable part of a run does not depend on the USER variable:
the program reads the environment only at PATH and HOME. -/
theorem main_program_fst_congr {exec : Exec} {fs : FS} {pwd : Pwd} {env1 env2 : Env}
    {console : List (Option String)}
    (h : ∀ k, k ≠ "USER" → env1 k = env2 k) :
    (main_program exec fs pwd env1 console).1 = (main_program exec fs pwd env2 console).1 := by
  have hH : env1 "HOME" = env2 "HOME" := h "HOME" (by decide)
  have hP : env1 "PATH" = env2 "PATH" := h "PATH" (by decide)
  have hT : expanduser env1 pwd "~/.dotnet/tools" = expanduser env2 pwd "~/.dotnet/tools" :=
    expanduser_env_congr pwd hH "~/.dotnet/tools"
  rcases h0 : exec 0 with _ | ⟨rc0, a, b⟩
  · simp [main_program, St.empty, run_command, h0]
  · by_cases hrc0 : rc0 = 0
    · subst hrc0
      cases henv : env2 "PATH" with
      | none =>
          have henv1 : env1 "PATH" = none := by rw [hP, henv]
          simp [main_program, St.empty, run_command, h0, henv, henv1]
      | some pv =>
          have henv1 : env1 "PATH" = some pv := by rw [hP, henv]
          by_cases hc : pyContains pv (expanduser env2 pwd "~/.dotnet/tools") = true
          · have hc1 : pyContains pv (expanduser env1 pwd "~/.dotnet/tools") = true := by
              rw [hT]; exact hc
            rcases h1 : exec 1 with _ | ⟨rc1, o2, e2⟩
            · simp [main_program, St.empty, run_command, h0, henv, henv1, hc, hc1, h1, hT]
            · by_cases hrc1 : rc1 = 0
              · subst hrc1
                simp only [main_program, St.empty, run_command]
                simp [h0, henv, henv1, hc, hc1, h1, hT]
                exact main_loop_env_congr hH console _
              · simp [main_program, St.empty, run_command, h0, henv, henv1, hc, hc1, h1,
                  hrc1, hT]
          · have hc1 : ¬ pyContains pv (expanduser env1 pwd "~/.dotnet/tools") = true := by
              rw [hT]; exact hc
            have hH' : (fun k => if k = "PATH"
                  then some (pv ++ ":" ++ expanduser env2 pwd "~/.dotnet/tools")
                  else env1 k) "HOME"
                = (fun k => if k = "PATH"
                  then some (pv ++ ":" ++ expanduser env2 pwd "~/.dotnet/tools")
                  else env2 k) "HOME" := by
              simp [hH]
            rcases h1 : exec 1 with _ | ⟨rc1, o2, e2⟩
            · simp [main_program, St.empty, run_command, h0, henv, henv1, hc, hc1, h1, hT]
            · by_cases hrc1 : rc1 = 0
              · subst hrc1
                simp only [main_program, St.empty, run_command]
                simp [h0, henv, henv1, hc, hc1, h1, hT]
                exact @main_loop_env_congr exec fs pwd
                  (fun k => if k = "PATH"
                    then some (pv ++ ":" ++ expanduser env2 pwd "~/.dotnet/tools")
                    else env1 k)
                  (fun k => if k = "PATH"
                    then some (pv ++ ":" ++ expanduser env2 pwd "~/.dotnet/tools")
                    else env2 k)
                  hH' console _
              · simp [main_program, St.empty, run_command, h0, henv, henv1, hc, hc1, h1,
                  hrc1, hT]
    · simp [main_program, St.empty, run_command, h0, hrc0]

/-- A passwd database with no entries. -/
def pwdTriv : Pwd := ⟨none, fun _ => none⟩

/-- An empty filesystem. -/
def fsTriv : FS := ⟨fun _ => false, fun _ => false, fun _ => [], fun s => s⟩

/-- A typical environment: PATH and HOME set, nothing else. -/
def envStd : Env := fun k =>
  if k = "PATH" then some "/usr/bin:/bin"
  else if k = "HOME" then some "/home/u" else none

/-- An oracle under which every spawned command succeeds quietly. -/
def exAll : Exec := fun _ => ProcResult.completed 0 "" ""

/-- An oracle where spawn 0 (dotnet --version) succeeds and spawn 1
(ilspycmd --version) raises FileNotFoundError: ilspycmd is absent. -/
def exC1 : Exec := fun n =>
  if n = 1 then ProcResult.missing else ProcResult.completed 0 "8.0.100" ""

/-- C1: claimed, the program survives an absent ilspycmd during the
probe and proceeds to run dotnet tool install.  The code disagrees: the
FileNotFoundError is caught inside run_command, which calls
sys.exit(1); the resulting SystemExit is not an Exception, escapes the
except Exception handler around the probe, and the process terminates
with status 1 — the install command is never spawned, no decompilation
happens, and the error names the missing ilspycmd. -/
theorem claim_C1 :
    stepExit (main_program exC1 fsTriv pwdTriv envStd []).1 = some (ExitKind.exited 1) ∧
    ["dotnet", "tool", "install", "--global", "ilspycmd"]
        ∉ stepSpawned (main_program exC1 fsTriv pwdTriv envStd []).1 ∧
    stepInvs (main_program exC1 fsTriv pwdTriv envStd []).1 = [] ∧
    print_error_msg ("Command not found: \x27ilspycmd\x27. Please ensure it\x27s in your PATH.")
        ∈ stepErrs (main_program exC1 fsTriv pwdTriv envStd []).1 := by
  decide

/-- C5: the Process Runner error contract.  On a missing executable,
run_command reports an error message containing the command name
(command[0]) and terminates the process with exit status 1 (non-zero).
On a completed command with non-zero return code and failure-checking
enabled, it reports a message containing the exit code and a message
containing the stripped captured stderr, and terminates the process
with that same exit code. -/
theorem claim_C5 (exec : Exec) (st : St) (command : List String) (check : Bool) :
    (exec st.spawned.length = ProcResult.missing →
      ∃ m, run_command exec st command check
          = Step.halt
              { st with
                spawned := st.spawned ++ [command],
                errs := st.errs ++ [m] }
              (ExitKind.exited 1) ∧
        pyContains m (command.headD "") = true ∧ (1 : Int) ≠ 0) ∧
    (∀ rc out err, exec st.spawned.length = ProcResult.completed rc out err →
      check = true → rc ≠ 0 →
      ∃ m1 m2, run_command exec st command check
          = Step.halt
              { st with
                spawned := st.spawned ++ [command],
                errs := st.errs ++ [m1, m2] }
              (ExitKind.exited rc) ∧
        pyContains m1 (toString rc) = true ∧ pyContains m2 (pyStrip err) = true) := by
  constructor
  · intro h
    refine ⟨print_error_msg ("Command not found: \x27" ++ command.headD "" ++
      "\x27. Please ensure it\x27s in your PATH."), ?_, ?_, by decide⟩
    · simp [run_command, h]
    · have hmid := pyContains_append_middle ("❌ Error: " ++ "Command not found: \x27")
        (command.headD "") "\x27. Please ensure it\x27s in your PATH."
      simpa [print_error_msg, String.append_assoc] using hmid
  · intro rc out err h hck hrc
    subst hck
    refine ⟨print_error_msg ("Command failed with exit code " ++ toString rc ++
        ": \x27" ++ String.intercalate " " command ++ "\x27"),
      print_error_msg ("Stderr: " ++ pyStrip err), ?_, ?_, ?_⟩
    · simp [run_command, h, hrc]
    · have hmid := pyContains_append_middle ("❌ Error: " ++ "Command failed with exit code ")
        (toString rc) (": \x27" ++ String.intercalate " " command ++ "\x27")
      simpa [print_error_msg, String.append_assoc] using hmid
    · have hmid := pyContains_append_middle ("❌ Error: " ++ "Stderr: ") (pyStrip err) ""
      simpa [print_error_msg, String.append_assoc] using hmid

/-- C5 witness: a missing ilspycmd probe exits with status 1 naming
ilspycmd; a dotnet probe completing with code 2 and stderr " boom "
exits with status 2 reporting the code and the stripped stderr. -/
theorem claim_C5_witness :
    (∃ m, run_command (fun _ => ProcResult.missing) St.empty ["ilspycmd", "--version"] true
        = Step.halt
            { St.empty with
              spawned := [["ilspycmd", "--version"]],
              errs := [m] }
            (ExitKind.exited 1) ∧
      pyContains m "ilspycmd" = true ∧ (1 : Int) ≠ 0) ∧
    (∃ m1 m2, run_command (fun _ => ProcResult.completed 2 "" " boom ") St.empty
          ["dotnet", "--version"] true
        = Step.halt
            { St.empty with
              spawned := [["dotnet", "--version"]],
              errs := [m1, m2] }
            (ExitKind.exited 2) ∧
      pyContains m1 (toString (2 : Int)) = true ∧ pyContains m2 "boom" = true) := by
  constructor
  · obtain ⟨m, hrun, hm, hne⟩ := (claim_C5 (fun _ => ProcResult.missing) St.empty
      ["ilspycmd", "--version"] true).1 rfl
    exact ⟨m, hrun, hm, hne⟩
  · obtain ⟨m1, m2, hrun, hm1, hm2⟩ := (claim_C5 (fun _ => ProcResult.completed 2 "" " boom ")
      St.empty ["dotnet", "--version"] true).2 2 "" " boom " rfl rfl (by decide)
    refine ⟨m1, m2, hrun, hm1, ?_⟩
    have hs : pyStrip " boom " = "boom" := by decide
    rw [hs] at hm2
    exact hm2

/-- C3: in directory mode, when no entry of the listed directory ends
in .dll, confirming the first prompt yields zero decompile invocations,
a No-dll-files-found error line, and termination with exit status 1 —
whatever the other directory contents are. -/
theorem claim_C3 (exec : Exec) (fs : FS) (pwd : Pwd) (env : Env) (st : St)
    (p o r1 : String) (rest : List (Option String))
    (hdir : fs.isDir (resolveInput env pwd p) = true)
    (hempty : (fs.listdir (resolveInput env pwd p)).filter (fun f => pyEndsWith f ".dll") = [])
    (h1 : pyStrip (pyLower r1) = "y") :
    stepInvs (main_loop exec fs pwd env st (some p :: some o :: some r1 :: rest)) = st.invs ∧
    stepErrs (main_loop exec fs pwd env st (some p :: some o :: some r1 :: rest))
      = st.errs ++ [print_error_msg ("No .dll files found in \x27" ++
          resolveInput env pwd p ++ "\x27.")] ∧
    finalExit (main_loop exec fs pwd env st (some p :: some o :: some r1 :: rest))
      = ExitKind.exited 1 := by
  rw [main_loop_dir hdir, hdi_nofiles h1 hempty]
  exact ⟨rfl, rfl, rfl⟩

/-- C3 witness: a directory /tmp/libs containing only notes.txt and a
sub-directory src: confirming the first prompt gives no invocation, the
error line, and exit status 1. -/
theorem claim_C3_witness :
    stepInvs (main_loop exAll
      ⟨fun s => s = "/tmp/libs", fun _ => false, fun _ => ["notes.txt", "src"], fun s => s⟩
      pwdTriv envStd St.empty [some "/tmp/libs", some "/tmp/out", some "y"]) = [] ∧
    stepErrs (main_loop exAll
      ⟨fun s => s = "/tmp/libs", fun _ => false, fun _ => ["notes.txt", "src"], fun s => s⟩
      pwdTriv envStd St.empty [some "/tmp/libs", some "/tmp/out", some "y"])
      = [print_error_msg ("No .dll files found in \x27" ++ "/tmp/libs" ++ "\x27.")] ∧
    finalExit (main_loop exAll
      ⟨fun s => s = "/tmp/libs", fun _ => false, fun _ => ["notes.txt", "src"], fun s => s⟩
      pwdTriv envStd St.empty [some "/tmp/libs", some "/tmp/out", some "y"])
      = ExitKind.exited 1 := by
  have h := claim_C3 exAll
    ⟨fun s => s = "/tmp/libs", fun _ => false, fun _ => ["notes.txt", "src"], fun s => s⟩
    pwdTriv envStd St.empty "/tmp/libs" "/tmp/out" "y" [] (by decide) (by decide) (by decide)
  exact h

/-- A step that did not terminate the process leads to the normal
end of main: interpreter exit 0. -/
theorem finalExit_of_stepExit_none {s : Step Unit} (h : stepExit s = none) :
    finalExit s = ExitKind.exited 0 := by
  cases s with
  | next st u => rfl
  | halt st e => simp [stepExit] at h

/-- The directory /tmp/libs of the specification example: A.dll, B.dll
and notes.txt. -/
def fsLibs : FS :=
  ⟨fun s => s = "/tmp/libs", fun _ => false,
   fun s => if s = "/tmp/libs" then ["A.dll", "B.dll", "notes.txt"] else [],
   fun s => s⟩

/-- C4: in directory mode, declining the first prompt (any answer whose
lowercased, stripped form is not y) gives zero decompile invocations
and a clean exit with status 0; so does declining the second prompt
(reachable when matching entries exist). -/
theorem claim_C4 (exec : Exec) (fs : FS) (pwd : Pwd) (env : Env) (st : St)
    (p o r1 r2 : String) (rest : List (Option String))
    (hdir : fs.isDir (resolveInput env pwd p) = true) :
    (pyStrip (pyLower r1) ≠ "y" →
      stepInvs (main_loop exec fs pwd env st (some p :: some o :: some r1 :: rest)) = st.invs ∧
      finalExit (main_loop exec fs pwd env st (some p :: some o :: some r1 :: rest))
        = ExitKind.exited 0) ∧
    (pyStrip (pyLower r1) = "y" →
      (fs.listdir (resolveInput env pwd p)).filter (fun f => pyEndsWith f ".dll") ≠ [] →
      pyStrip (pyLower r2) ≠ "y" →
      stepInvs (main_loop exec fs pwd env st
        (some p :: some o :: some r1 :: some r2 :: rest)) = st.invs ∧
      finalExit (main_loop exec fs pwd env st
        (some p :: some o :: some r1 :: some r2 :: rest)) = ExitKind.exited 0) := by
  constructor
  · intro h1
    rw [main_loop_dir hdir, hdi_decline1 h1]
    exact ⟨rfl, rfl⟩
  · intro h1 hne h2
    rw [main_loop_dir hdir]
    rcases @hdi_decline2_proj exec fs st (resolveInput env pwd p) (resolveInput env pwd o)
      r1 r2 rest h1 h2 hne with ⟨hi, _, hx⟩
    exact ⟨hi, finalExit_of_stepExit_none hx⟩

/-- C4 witness: on /tmp/libs, answering no at the first prompt, or yes
(not y) at the second after a y at the first, performs no decompilation
and exits with status 0. -/
theorem claim_C4_witness :
    (stepInvs (main_loop exAll fsLibs pwdTriv envStd St.empty
        [some "/tmp/libs", some "/tmp/out", some "no"]) = [] ∧
      finalExit (main_loop exAll fsLibs pwdTriv envStd St.empty
        [some "/tmp/libs", some "/tmp/out", some "no"]) = ExitKind.exited 0) ∧
    (stepInvs (main_loop exAll fsLibs pwdTriv envStd St.empty
        [some "/tmp/libs", some "/tmp/out", some "y", some "yes"]) = [] ∧
      finalExit (main_loop exAll fsLibs pwdTriv envStd St.empty
        [some "/tmp/libs", some "/tmp/out", some "y", some "yes"]) = ExitKind.exited 0) := by
  have h := claim_C4 exAll fsLibs pwdTriv envStd St.empty
    "/tmp/libs" "/tmp/out" "no" "yes" [] (by decide)
  have h2 := claim_C4 exAll fsLibs pwdTriv envStd St.empty
    "/tmp/libs" "/tmp/out" "y" "yes" [] (by decide)
  exact ⟨h.1 (by decide), h2.2 (by decide) (by decide) (by decide)⟩

/-- A filesystem with a single regular file /tmp/readme.txt. -/
def fsFile : FS := ⟨fun _ => false, fun s => s = "/tmp/readme.txt", fun _ => [], fun s => s⟩

/-- C6: a resolved input path that is an existing file not ending in
.dll never receives a decompile invocation: the loop iteration only
reports an error and re-prompts (continues with the remaining console),
and no invocation of the whole remaining run targets that path. -/
theorem claim_C6 (exec : Exec) (fs : FS) (pwd : Pwd) (env : Env) (st : St)
    (p o : String) (rest : List (Option String))
    (hdir : fs.isDir (resolveInput env pwd p) = false)
    (hfile : fs.isFile (resolveInput env pwd p) = true)
    (hdll : pyEndsWith (resolveInput env pwd p) ".dll" = false)
    (hinv : st.invs = []) :
    main_loop exec fs pwd env st (some p :: some o :: rest)
      = main_loop exec fs pwd env
          { st with errs := st.errs ++
            [print_error_msg "The selected file is not a .dll file. Please try again."] }
          rest ∧
    ∀ inv ∈ stepInvs (main_loop exec fs pwd env st (some p :: some o :: rest)),
      inv.dllPath ≠ resolveInput env pwd p := by
  refine ⟨by simp [main_loop, hdir, hfile, hdll], ?_⟩
  intro inv hm
  rcases mem_stepInvs_main_loop _ _ _ hm with hmem | hend
  · rw [hinv] at hmem
    exact absurd hmem (List.not_mem_nil inv)
  · intro hc
    rw [hc, hdll] at hend
    exact absurd hend (by decide)

/-- C6 witness: the file /tmp/readme.txt is rejected with the
wrong-extension error, the loop re-prompts, and no invocation occurs. -/
theorem claim_C6_witness :
    main_loop exAll fsFile pwdTriv envStd St.empty [some "/tmp/readme.txt", some "/o"]
      = main_loop exAll fsFile pwdTriv envStd
          { St.empty with errs :=
            [print_error_msg "The selected file is not a .dll file. Please try again."] }
          [] ∧
    stepInvs (main_loop exAll fsFile pwdTriv envStd St.empty
      [some "/tmp/readme.txt", some "/o"]) = [] := by
  have h := claim_C6 exAll fsFile pwdTriv envStd St.empty "/tmp/readme.txt" "/o" []
    (by decide) (by decide) (by decide) rfl
  exact ⟨h.1, by decide⟩

/-- C7: once the SDK probe has succeeded (with PATH set), the
environment after the run differs from the initial one at most at
PATH: every other variable is unchanged, and PATH itself is unchanged
when the expanded per-user tool directory already occurs in it as a
substring, and has it appended once (colon-separated) otherwise. -/
theorem claim_C7 (exec : Exec) (fs : FS) (pwd : Pwd) (env : Env)
    (console : List (Option String)) (a b pathVal : String)
    (hd : exec 0 = ProcResult.completed 0 a b)
    (hp : env "PATH" = some pathVal) :
    (∀ k, k ≠ "PATH" → (main_program exec fs pwd env console).2 k = env k) ∧
    (pyContains pathVal (expanduser env pwd "~/.dotnet/tools") = true →
      (main_program exec fs pwd env console).2 "PATH" = some pathVal) ∧
    (pyContains pathVal (expanduser env pwd "~/.dotnet/tools") = false →
      (main_program exec fs pwd env console).2 "PATH"
        = some (pathVal ++ ":" ++ expanduser env pwd "~/.dotnet/tools")) := by
  have he := @main_program_env exec fs pwd env console a b pathVal hd hp
  refine ⟨?_, ?_, ?_⟩
  · intro k hk
    rw [he]
    by_cases hc : pyContains pathVal (expanduser env pwd "~/.dotnet/tools") = true
    · simp [hc]
    · simp [hc, hk]
  · intro hc
    rw [he]
    simp [hc, hp]
  · intro hc
    rw [he]
    simp [hc]

/-- C7 witness: with PATH /usr/bin:/bin and HOME /home/u, the tool
directory is absent from PATH, so PATH gains it once; HOME and USER are
untouched. -/
theorem claim_C7_witness :
    (main_program exAll fsTriv pwdTriv envStd []).2 "HOME" = some "/home/u" ∧
    (main_program exAll fsTriv pwdTriv envStd []).2 "USER" = none ∧
    (main_program exAll fsTriv pwdTriv envStd []).2 "PATH"
      = some "/usr/bin:/bin:/home/u/.dotnet/tools" := by
  have h := claim_C7 exAll fsTriv pwdTriv envStd [] "" "" "/usr/bin:/bin" rfl (by decide)
  refine ⟨?_, ?_, ?_⟩
  · rw [h.1 "HOME" (by decide)]
    decide
  · rw [h.1 "USER" (by decide)]
    decide
  · rw [h.2.2 (by decide)]
    decide

/-- C8: the observable behaviour of a run (spawned commands, decompile
invocations, stdout, stderr, termination) is unchanged under any change
of the USER environment variable, all other inputs and filesystem state
being equal. -/
theorem claim_C8 (exec : Exec) (fs : FS) (pwd : Pwd) (console : List (Option String))
    (env1 env2 : Env) (h : ∀ k, k ≠ "USER" → env1 k = env2 k) :
    (main_program exec fs pwd env1 console).1 = (main_program exec fs pwd env2 console).1 :=
  main_program_fst_congr h

/-- C8 witness: a run with USER=alice and a run with USER unset (all
else equal) behave identically. -/
theorem claim_C8_witness :
    (main_program exAll fsTriv pwdTriv
        (fun k => if k = "USER" then some "alice" else envStd k) []).1
      = (main_program exAll fsTriv pwdTriv envStd []).1 :=
  claim_C8 exAll fsTriv pwdTriv [] _ _ (fun _ hk => if_neg hk)

/-- C10: both directory-mode prompts treat an answer as confirmation
exactly when its lowercased, whitespace-stripped form equals y: the run
is unchanged when each answer is replaced by its canonical form (y for
accepted, n for declined), y-forms such as a padded upper-case Y
canonicalize to y, while yes canonicalizes to n (declining); concretely
on /tmp/libs, answering yes at the first prompt declines (no
invocation, exit 0) whereas a padded Y then y decompiles both files. -/
theorem claim_C10 (exec : Exec) (fs : FS) (pwd : Pwd) (env : Env) (st : St)
    (p o r1 r2 : String) (rest : List (Option String))
    (hdir : fs.isDir (resolveInput env pwd p) = true) :
    (main_loop exec fs pwd env st (some p :: some o :: some r1 :: some r2 :: rest)
      = main_loop exec fs pwd env st
          (some p :: some o :: some (canonResp r1) :: some (canonResp r2) :: rest)) ∧
    canonResp "y" = "y" ∧ canonResp " Y " = "y" ∧ canonResp "Y" = "y" ∧
    canonResp "yes" = "n" ∧ canonResp "n" = "n" ∧
    stepInvs (main_loop exAll fsLibs pwdTriv envStd St.empty
      [some "/tmp/libs", some "/tmp/out", some "yes", some "y"]) = [] ∧
    finalExit (main_loop exAll fsLibs pwdTriv envStd St.empty
      [some "/tmp/libs", some "/tmp/out", some "yes", some "y"]) = ExitKind.exited 0 ∧
    (stepInvs (main_loop exAll fsLibs pwdTriv envStd St.empty
      [some "/tmp/libs", some "/tmp/out", some " Y ", some "y"])).length = 2 := by
  refine ⟨?_, by decide, by decide, by decide, by decide, by decide, by decide, by decide,
    by decide⟩
  rw [main_loop_dir hdir, main_loop_dir hdir]
  exact hdi_canon r1 r2 rest

/-- C10 witness: a padded upper-case Y then YES runs exactly like y
then n; yes canonicalizes to n. -/
theorem claim_C10_witness :
    main_loop exAll fsLibs pwdTriv envStd St.empty
        [some "/tmp/libs", some "/tmp/out", some " Y ", some "YES"]
      = main_loop exAll fsLibs pwdTriv envStd St.empty
        [some "/tmp/libs", some "/tmp/out", some "y", some "n"] ∧
    canonResp "yes" = "n" := by
  have h := claim_C10 exAll fsLibs pwdTriv envStd St.empty
    "/tmp/libs" "/tmp/out" " Y " "YES" [] (by decide)
  constructor
  · have heq := h.1
    rw [show canonResp " Y " = "y" from by decide,
      show canonResp "YES" = "n" from by decide] at heq
    exact heq
  · exact h.2.2.2.2.1

/-- A directory /d whose entries are the hidden file .dll and the file
.dll.dll. -/
def fsDots : FS :=
  ⟨fun s => s = "/d", fun _ => false,
   fun s => if s = "/d" then [".dll", ".dll.dll"] else [], fun s => s⟩

/-- C2 counterexample: /d contains the two entries .dll and .dll.dll
(both end in .dll).  Confirming both prompts yields the two expected
invocations, but both target the same sub-folder /o/.dll —
os.path.splitext strips no extension from the all-dots name .dll and
strips the final .dll from .dll.dll — so the claimed distinctness of
the sub-folders fails. -/
theorem claim_C2_counterexample :
    stepInvs (main_loop exAll fsDots pwdTriv envStd St.empty
        [some "/d", some "/o", some "y", some "y"])
      = [⟨"/d/.dll", "/o/.dll"⟩, ⟨"/d/.dll.dll", "/o/.dll"⟩] ∧
    ¬ ((stepInvs (main_loop exAll fsDots pwdTriv envStd St.empty
        [some "/d", some "/o", some "y", some "y"])).map Invocation.outputFolder).Nodup := by
  exact ⟨by decide, by decide⟩

/-- C2 (amended): for a directory with N (N at least 1) entries ending
in .dll, answering y to both prompts yields exactly N decompile
invocations, one per matching entry in order, each targeting the
sub-folder of the output folder named by the entry with its extension
split off; and these sub-folders are pairwise distinct provided every
matching entry has a real (non-empty) split extension, i.e. no matching
entry is a run of dots followed by dll.  (All spawns are assumed to
succeed, directory entries are distinct names without a path
separator.) -/
theorem claim_C2 (exec : Exec) (fs : FS) (pwd : Pwd) (env : Env) (st : St)
    (p o r1 r2 : String) (rest : List (Option String))
    (hex : ∀ n, ∃ out err, exec n = ProcResult.completed 0 out err)
    (hdir : fs.isDir (resolveInput env pwd p) = true)
    (h1 : pyStrip (pyLower r1) = "y") (h2 : pyStrip (pyLower r2) = "y")
    (hne : (fs.listdir (resolveInput env pwd p)).filter (fun f => pyEndsWith f ".dll") ≠ [])
    (hnd : (fs.listdir (resolveInput env pwd p)).Nodup)
    (hns : ∀ f ∈ fs.listdir (resolveInput env pwd p), pyContains f "/" = false) :
    stepInvs (main_loop exec fs pwd env st
        (some p :: some o :: some r1 :: some r2 :: rest))
      = st.invs ++ ((fs.listdir (resolveInput env pwd p)).filter
          (fun f => pyEndsWith f ".dll")).map
          (fun f => Invocation.mk (pyjoin (resolveInput env pwd p) f)
            (pyjoin (resolveInput env pwd o) (splitext f).1)) ∧
    ((∀ f ∈ (fs.listdir (resolveInput env pwd p)).filter (fun f => pyEndsWith f ".dll"),
        (splitext f).2 = ".dll") →
      (((fs.listdir (resolveInput env pwd p)).filter (fun f => pyEndsWith f ".dll")).map
        (fun f => pyjoin (resolveInput env pwd o) (splitext f).1)).Nodup) := by
  refine ⟨main_loop_dir_yy_invs hex hdir h1 h2 hne, ?_⟩
  intro hext
  exact derived_subfolders_nodup _ _ hnd hns hext

/-- C2 witness: the specification example — /tmp/libs with A.dll,
B.dll and notes.txt, output /tmp/out, both prompts confirmed — yields
exactly the two invocations at the distinct sub-folders /tmp/out/A and
/tmp/out/B. -/
theorem claim_C2_witness :
    stepInvs (main_loop exAll fsLibs pwdTriv envStd St.empty
        [some "/tmp/libs", some "/tmp/out", some "y", some "y"])
      = [⟨"/tmp/libs/A.dll", "/tmp/out/A"⟩, ⟨"/tmp/libs/B.dll", "/tmp/out/B"⟩] ∧
    (["/tmp/out/A", "/tmp/out/B"] : List String).Nodup := by
  have h := claim_C2 exAll fsLibs pwdTriv envStd St.empty
    "/tmp/libs" "/tmp/out" "y" "y" [] (fun _ => ⟨"", "", rfl⟩)
    (by decide) (by decide) (by decide) (by decide) (by decide) (by decide)
  constructor
  · rw [h.1]
    decide
  · decide

/-- A directory /d whose entries are Sub.dll (itself a directory on
this filesystem) and Lib.DLL (upper-case extension). -/
def fsSub : FS :=
  ⟨fun s => s = "/d" || s = "/d/Sub.dll", fun _ => false,
   fun s => if s = "/d" then ["Sub.dll", "Lib.DLL"] else [], fun s => s⟩

/-- C9: the directory-mode match is a pure, case-sensitive name test:
for any filesystem (whatever the types of the children), the
invocations are exactly the listdir names ending in .dll, joined and
mapped to derived sub-folders; Sub.dll matches while Lib.DLL does not,
and on a filesystem where /d/Sub.dll is itself a directory the entry is
still listed and decompiled. -/
theorem claim_C9 (exec : Exec) (fs : FS) (pwd : Pwd) (env : Env) (st : St)
    (p o r1 r2 : String) (rest : List (Option String))
    (hex : ∀ n, ∃ out err, exec n = ProcResult.completed 0 out err)
    (hdir : fs.isDir (resolveInput env pwd p) = true)
    (h1 : pyStrip (pyLower r1) = "y") (h2 : pyStrip (pyLower r2) = "y")
    (hne : (fs.listdir (resolveInput env pwd p)).filter (fun f => pyEndsWith f ".dll") ≠ []) :
    stepInvs (main_loop exec fs pwd env st
        (some p :: some o :: some r1 :: some r2 :: rest))
      = st.invs ++ ((fs.listdir (resolveInput env pwd p)).filter
          (fun f => pyEndsWith f ".dll")).map
          (fun f => Invocation.mk (pyjoin (resolveInput env pwd p) f)
            (pyjoin (resolveInput env pwd o) (splitext f).1)) ∧
    pyEndsWith "Sub.dll" ".dll" = true ∧
    pyEndsWith "Lib.DLL" ".dll" = false ∧
    fsSub.isDir "/d/Sub.dll" = true ∧
    stepInvs (main_loop exAll fsSub pwdTriv envStd St.empty
        [some "/d", some "/o", some "y", some "y"]) = [⟨"/d/Sub.dll", "/o/Sub"⟩] := by
  exact ⟨main_loop_dir_yy_invs hex hdir h1 h2 hne, by decide, by decide, by decide, by decide⟩

/-- C9 witness: on that filesystem, both prompts confirmed, exactly the
directory-typed entry Sub.dll is decompiled, into /o/Sub; Lib.DLL is
excluded by the case-sensitive name test. -/
theorem claim_C9_witness :
    stepInvs (main_loop exAll fsSub pwdTriv envStd St.empty
        [some "/d", some "/o", some "y", some "y"]) = [⟨"/d/Sub.dll", "/o/Sub"⟩] ∧
    pyEndsWith "Lib.DLL" ".dll" = false := by
  have h := claim_C9 exAll fsSub pwdTriv envStd St.empty "/d" "/o" "y" "y" []
    (fun _ => ⟨"", "", rfl⟩) (by decide) (by decide) (by decide) (by decide)
  refine ⟨?_, h.2.2.1⟩
  rw [h.1]
  decide
